import Mathlib

/-!
Verification of the mov_compressor repository (compress_video.py and
web_interface.py): a shallow embedding of the settings resolver, the
filename sanitizer, and the upload/dispatch HTTP handler, with theorems
settling the specification's claims.

Conventions of the embedding: Python byte strings are `List Nat`, Python
`str` is Lean `String` (or `List Char` at the proof level), Python dicts
are insertion-ordered association lists, machine integers are `Int`, and
the external encoder is an oracle parameter (`EncodeOutcome`).  Filesystem
side effects of the handler are tracked as an explicit list of existing
temporary directories plus an event trace.
-/

namespace MovCompressor

set_option maxRecDepth 100000

/-! ### Generic list helpers (Python `in`, `find`, `split`, `strip`) -/

/-- Index of the first occurrence of `pat` as a contiguous sublist,
mirroring Python `bytes.find` / `str.find` (`some 0` for an empty pattern,
as in Python). -/
def findSubL {α : Type} [DecidableEq α] (pat : List α) : List α → Option Nat
  | [] => if pat.isPrefixOf ([] : List α) then some 0 else none
  | a :: rest =>
    if pat.isPrefixOf (a :: rest) then some 0
    else (findSubL pat rest).map (· + 1)

/-- Python `pat in s` on byte/char sequences. -/
def containsSubL {α : Type} [DecidableEq α] (pat s : List α) : Bool :=
  (findSubL pat s).isSome

/-- Fuel-driven worker for `splitOnList`; fuel bounds the number of
separator occurrences, `s.length + 1` always suffices. -/
def splitOnListAux {α : Type} [DecidableEq α] (sep : List α) :
    Nat → List α → List (List α)
  | 0, s => [s]
  | fuel + 1, s =>
    match findSubL sep s with
    | none => [s]
    | some i => s.take i :: splitOnListAux sep fuel (s.drop (i + sep.length))

/-- Python `s.split(sep)` for a non-empty separator (all separators used by
the handler are non-empty; Python raises on an empty one, modelled as the
identity split here, unreachable in this development). -/
def splitOnList {α : Type} [DecidableEq α] (sep s : List α) : List (List α) :=
  if sep.isEmpty then [s] else splitOnListAux sep (s.length + 1) s

/-- Split a character list on a single separator character (used to model
`pathlib` component splitting and the scale regex). -/
def splitOnChar (sep : Char) : List Char → List (List Char)
  | [] => [[]]
  | c :: cs =>
    let r := splitOnChar sep cs
    if c = sep then [] :: r
    else (c :: r.headD []) :: r.tail

/-! ### Filename sanitization (`web_interface.py`, `_sanitize_filename`) -/

/-- `pathlib.PurePosixPath(s).name`: split on `/`, drop empty and
single-dot components (pathlib removes them while parsing), and take the
last remaining component, or the empty string if none remain. -/
def pathComponents (l : List Char) : List (List Char) :=
  (splitOnChar '/' l).filter (fun c => c ≠ [] ∧ c ≠ ['.'])

/-- Final path component as `pathlib.Path(filename).name` computes it on a
POSIX system (the platform the repository targets). -/
def posixNameL (l : List Char) : List Char :=
  (pathComponents l).getLastD []

/-- `filename.replace('\x00', '')`. -/
def removeNullsL (l : List Char) : List Char :=
  l.filter (fun c => c ≠ '\x00')

/-- The character class of `re.sub(r'[<>:"/\\|?*]', '_', filename)`. -/
def badChar (c : Char) : Bool :=
  c = '<' || c = '>' || c = ':' || c = '"' || c = '/' ||
  c = '\\' || c = '|' || c = '?' || c = '*'

/-- `re.sub(r'[<>:"/\\|?*]', '_', filename)`. -/
def replaceBadL (l : List Char) : List Char :=
  l.map (fun c => if badChar c then '_' else c)

/-- The first three statements of `_sanitize_filename`: take the final
path component, remove null bytes, replace problematic characters with
underscores. -/
def sanitizeCore (l : List Char) : List Char :=
  replaceBadL (removeNullsL (posixNameL l))

/-- `_sanitize_filename` on character lists: the core steps, with an
empty result replaced by `uploaded_video`. -/
def sanitizeL (l : List Char) : List Char :=
  if sanitizeCore l = [] then "uploaded_video".data else sanitizeCore l

/-- `_sanitize_filename` on strings. -/
def sanitizeFilename (s : String) : String :=
  ⟨sanitizeL s.data⟩

/-- The final path component on strings (for stating the decomposition
property of sanitization). -/
def pathFinalComponent (s : String) : String :=
  ⟨posixNameL s.data⟩

/-! ### Python dicts and the preset table (`compress_video.py`) -/

/-- Values stored in the settings dicts: integers and strings. -/
inductive Val where
  | i (n : Int)
  | s (str : String)
deriving DecidableEq

/-- A Python dict with string keys, as an insertion-ordered association
list. -/
abbrev PyDict := List (String × Val)

/-- Dict lookup (`d[k]` / `d.get(k)`), first matching key. -/
def assocGet {α : Type} (k : String) : List (String × α) → Option α
  | [] => none
  | (k', v) :: rest => if k = k' then some v else assocGet k rest

/-- Dict item assignment `d[k] = v`: replace in place when the key exists
(keeping its position, as CPython does), else append. -/
def dictSet : PyDict → String → Val → PyDict
  | [], k, v => [(k, v)]
  | (k', v') :: rest, k, v =>
    if k' = k then (k, v) :: rest else (k', v') :: dictSet rest k v

/-- `d.get(k)` on a settings dict. -/
def dictGet (d : PyDict) (k : String) : Option Val :=
  assocGet k d

/-- `VideoCompressor.PRESETS['high']`. -/
def highDict : PyDict :=
  [("crf", Val.i 18), ("preset", Val.s "slow"),
   ("description", Val.s "High quality, larger file")]

/-- `VideoCompressor.PRESETS['medium']`. -/
def mediumDict : PyDict :=
  [("crf", Val.i 23), ("preset", Val.s "medium"),
   ("description", Val.s "Balanced quality and size")]

/-- `VideoCompressor.PRESETS['low']`. -/
def lowDict : PyDict :=
  [("crf", Val.i 28), ("preset", Val.s "fast"),
   ("description", Val.s "Lower quality, smaller file")]

/-- `VideoCompressor.PRESETS['web']`. -/
def webDict : PyDict :=
  [("crf", Val.i 25), ("preset", Val.s "medium"), ("scale", Val.s "1280:-2"),
   ("description", Val.s "Optimized for web (720p)")]

/-- `VideoCompressor.PRESETS`, in source order. -/
def presetsDict : List (String × PyDict) :=
  [("high", highDict), ("medium", mediumDict),
   ("low", lowDict), ("web", webDict)]

/-! ### Settings resolution (`compress`, lines 86-92) -/

/-- `if crf is not None: settings['crf'] = crf`. -/
def applyCrf (d : PyDict) : Option Int → PyDict
  | some c => dictSet d "crf" (Val.i c)
  | none => d

/-- `if scale: settings['scale'] = scale` (the empty string is falsy). -/
def applyScale (d : PyDict) : Option String → PyDict
  | some sc => if sc = "" then d else dictSet d "scale" (Val.s sc)
  | none => d

/-- The pure settings resolution performed by `compress`:
`settings = self.PRESETS.get(preset, self.PRESETS['medium']).copy()`
followed by the crf and scale override merges. -/
def resolveSettings (preset : String) (crf : Option Int) (scale : Option String) :
    PyDict :=
  applyScale (applyCrf ((assocGet preset presetsDict).getD mediumDict) crf) scale

/-! ### Handler-side field validation (`do_POST`, lines 145-159) -/

/-- The crf gate of the handler: `if 0 <= crf_val <= 51: settings['crf'] = crf_val`
(out-of-range values are dropped). -/
def acceptCrf (v : Int) : Option Int :=
  if 0 ≤ v ∧ v ≤ 51 then some v else none

/-- The fps gate of the handler: `if 1 <= fps_val <= 120`. -/
def acceptFps (v : Int) : Option Int :=
  if 1 ≤ v ∧ v ≤ 120 then some v else none

/-- `\d+` on ASCII text: one or more decimal digits. -/
def digits1 (l : List Char) : Bool :=
  !l.isEmpty && l.all Char.isDigit

/-- The body of `re.match(r'^\d+:-?\d+$', value)` without the `$`
newline allowance: digits, one colon, an optional minus, digits. -/
def scaleCore (l : List Char) : Bool :=
  match splitOnChar ':' l with
  | [a, b] =>
    digits1 a &&
      (match b with
       | '-' :: t => digits1 t
       | _ => digits1 b)
  | _ => false

/-- `re.match(r'^\d+:-?\d+$', value)` as a Boolean: Python's `$` also
matches just before a single trailing newline. -/
def scaleMatch (l : List Char) : Bool :=
  scaleCore l || (decide (l.getLast? = some '\n') && scaleCore l.dropLast)

/-- The scale gate of the handler (lines 155-159): the value must be
non-empty, different from `'none'`, and match the pattern; accepted values
pass through verbatim. -/
def webScale (s : String) : Option String :=
  if s = "" then none
  else if s = "none" then none
  else if scaleMatch s.data then some s else none

/-- The claim's wording of the scale pattern:
`<positive-integer>:<optional-minus><integer>` — the first group must
denote a positive integer. -/
def specScalePattern (s : String) : Bool :=
  match splitOnChar ':' s.data with
  | [a, b] =>
    (digits1 a && decide (0 < a.foldl (fun n c => n * 10 + (c.toNat - 48)) 0)) &&
      (match b with
       | '-' :: t => digits1 t
       | _ => digits1 b)
  | _ => false

/-! ### Heap model of the preset table (for the frame-effect claim) -/

/-- A heap of dict objects; references are indices, allocation appends. -/
abbrev Heap := List PyDict

/-- Dereference (reads outside the heap yield the empty dict; never
reachable in this development). -/
def readRef (h : Heap) (r : Nat) : PyDict :=
  h.getD r []

/-- The name-to-object table backing `VideoCompressor.PRESETS`: the four
preset dicts live at references 0-3. -/
def presetRefs : List (String × Nat) :=
  [("high", 0), ("medium", 1), ("low", 2), ("web", 3)]

/-- The heap at interpreter startup. -/
def initHeap : Heap :=
  [highDict, mediumDict, lowDict, webDict]

/-- `PRESETS.get(preset, PRESETS['medium'])` at the object level. -/
def refOf (p : String) : Nat :=
  (assocGet p presetRefs).getD 1

/-- The crf merge acting on a heap cell. -/
def applyCrfH (h : Heap) (rc : Nat) : Option Int → Heap
  | some c => h.set rc (dictSet (readRef h rc) "crf" (Val.i c))
  | none => h

/-- The scale merge acting on a heap cell. -/
def applyScaleH (h : Heap) (rc : Nat) : Option String → Heap
  | some sc => if sc = "" then h else h.set rc (dictSet (readRef h rc) "scale" (Val.s sc))
  | none => h

/-- Settings resolution with the object store explicit: look up the preset
object, allocate a copy (`.copy()`), and mutate only the copy.  Returns
the new heap and the reference of the resolved settings dict. -/
def resolveHeap (h : Heap) (p : String) (c : Option Int) (s : Option String) :
    Heap × Nat :=
  (applyScaleH (applyCrfH (h ++ [readRef h (refOf p)]) h.length c) h.length s,
   h.length)

/-! ### Bytes, encoding and decoding -/

/-- Python `bytes` as lists of byte values. -/
abbrev Bytes := List Nat

/-- Shorthand for the character data of a string literal. -/
def strL (s : String) : List Char :=
  s.data

/-- `s.encode()` for the ASCII literals appearing in the handler (on
ASCII text UTF-8 encoding is the identity on code points). -/
def strBytes (s : String) : Bytes :=
  s.data.map Char.toNat

/-- Is a byte a UTF-8 continuation byte? -/
def contB (b : Nat) : Bool :=
  128 ≤ b && b ≤ 191

/-- Range check for the second byte of a three-byte sequence (excludes
overlong forms and surrogates, as CPython's decoder does). -/
def cont3Snd (b b2 : Nat) : Bool :=
  if b = 224 then 160 ≤ b2 && b2 ≤ 191
  else if b = 237 then 128 ≤ b2 && b2 ≤ 159
  else contB b2

/-- Range check for the second byte of a four-byte sequence. -/
def cont4Snd (b b2 : Nat) : Bool :=
  if b = 240 then 144 ≤ b2 && b2 ≤ 191
  else if b = 244 then 128 ≤ b2 && b2 ≤ 143
  else contB b2

/-- Worker for `bytes.decode('utf-8', errors='ignore')`; the fuel is the
length of the input, each step consumes at least one byte.  Ill-formed
sequences are skipped (CPython may skip a valid continuation prefix
together with the lead byte; this difference only affects ill-formed
non-ASCII input, which no theorem below depends on). -/
def utf8DecodeIgnoreAux : Nat → Bytes → List Char
  | 0, _ => []
  | fuel + 1, l =>
    match l with
    | [] => []
    | b :: rest =>
      if b < 128 then Char.ofNat b :: utf8DecodeIgnoreAux fuel rest
      else if 194 ≤ b && b ≤ 223 then
        match rest with
        | b2 :: r2 =>
          if contB b2 then
            Char.ofNat ((b - 192) * 64 + (b2 - 128)) :: utf8DecodeIgnoreAux fuel r2
          else utf8DecodeIgnoreAux fuel rest
        | [] => []
      else if 224 ≤ b && b ≤ 239 then
        match rest with
        | b2 :: b3 :: r3 =>
          if cont3Snd b b2 && contB b3 then
            Char.ofNat ((b - 224) * 4096 + (b2 - 128) * 64 + (b3 - 128)) ::
              utf8DecodeIgnoreAux fuel r3
          else utf8DecodeIgnoreAux fuel rest
        | _ => utf8DecodeIgnoreAux fuel rest
      else if 240 ≤ b && b ≤ 244 then
        match rest with
        | b2 :: b3 :: b4 :: r4 =>
          if cont4Snd b b2 && contB b3 && contB b4 then
            Char.ofNat ((b - 240) * 262144 + (b2 - 128) * 4096 +
                (b3 - 128) * 64 + (b4 - 128)) :: utf8DecodeIgnoreAux fuel r4
          else utf8DecodeIgnoreAux fuel rest
        | _ => utf8DecodeIgnoreAux fuel rest
      else utf8DecodeIgnoreAux fuel rest

/-- `bytes.decode('utf-8', errors='ignore')`. -/
def utf8DecodeIgnore (l : Bytes) : List Char :=
  utf8DecodeIgnoreAux l.length l

/-- Worker for strict `bytes.decode('utf-8')`: any ill-formed sequence
makes the whole decode fail (`UnicodeDecodeError`). -/
def utf8DecodeStrictAux : Nat → Bytes → Option (List Char)
  | 0, l => match l with | [] => some [] | _ :: _ => none
  | fuel + 1, l =>
    match l with
    | [] => some []
    | b :: rest =>
      if b < 128 then (utf8DecodeStrictAux fuel rest).map (Char.ofNat b :: ·)
      else if 194 ≤ b && b ≤ 223 then
        match rest with
        | b2 :: r2 =>
          if contB b2 then
            (utf8DecodeStrictAux fuel r2).map
              (Char.ofNat ((b - 192) * 64 + (b2 - 128)) :: ·)
          else none
        | [] => none
      else if 224 ≤ b && b ≤ 239 then
        match rest with
        | b2 :: b3 :: r3 =>
          if cont3Snd b b2 && contB b3 then
            (utf8DecodeStrictAux fuel r3).map
              (Char.ofNat ((b - 224) * 4096 + (b2 - 128) * 64 + (b3 - 128)) :: ·)
          else none
        | _ => none
      else if 240 ≤ b && b ≤ 244 then
        match rest with
        | b2 :: b3 :: b4 :: r4 =>
          if cont4Snd b b2 && contB b3 && contB b4 then
            (utf8DecodeStrictAux fuel r4).map
              (Char.ofNat ((b - 240) * 262144 + (b2 - 128) * 4096 +
                  (b3 - 128) * 64 + (b4 - 128)) :: ·)
          else none
        | _ => none
      else none

/-- `bytes.decode('utf-8')`: `none` models `UnicodeDecodeError`. -/
def utf8DecodeStrict (l : Bytes) : Option (List Char) :=
  utf8DecodeStrictAux l.length l

/-! ### Python `int()` on header and field strings -/

/-- Characters `int()` strips from both ends (the Unicode whitespace
representable in the latin-1 range that HTTP header values live in). -/
def pyIsSpace (c : Char) : Bool :=
  c = ' ' || (9 ≤ c.toNat && c.toNat ≤ 13) ||
  (28 ≤ c.toNat && c.toNat ≤ 31) || c.toNat = 133 || c.toNat = 160

/-- After the first digit, `int()` accepts more digits with single
underscores strictly between digits. -/
def pyDigitsTail : List Char → Bool
  | [] => true
  | '_' :: c :: rest => c.isDigit && pyDigitsTail rest
  | ['_'] => false
  | c :: rest => c.isDigit && pyDigitsTail rest

/-- A digit group acceptable to `int()`: non-empty, digits with optional
single interior underscores. -/
def pyDigitsOk : List Char → Bool
  | [] => false
  | c :: rest => c.isDigit && pyDigitsTail rest

/-- Numeric value of a digit list (underscores already removed). -/
def digitsVal (l : List Char) : Nat :=
  l.foldl (fun n c => n * 10 + (c.toNat - 48)) 0

/-- Python `int(s)` in base 10: strip whitespace, optional sign, digits
with underscores.  `none` models `ValueError`. -/
def pythonInt (s : String) : Option Int :=
  let l := ((s.data.dropWhile pyIsSpace).reverse.dropWhile pyIsSpace).reverse
  match l with
  | '+' :: rest =>
    if pyDigitsOk rest then some (digitsVal (rest.filter (fun c => c ≠ '_'))) else none
  | '-' :: rest =>
    if pyDigitsOk rest then some (-(digitsVal (rest.filter (fun c => c ≠ '_')) : Int))
    else none
  | _ => if pyDigitsOk l then some (digitsVal (l.filter (fun c => c ≠ '_'))) else none

/-! ### HTTP model (`web_interface.py`, `do_POST`) -/

/-- `MAX_FILE_SIZE = 4 * 1024 * 1024 * 1024`. -/
def maxFileSize : Int := 4 * 1024 * 1024 * 1024

/-- A response as far as the claims are concerned: status code and body
bytes. -/
structure HttpResp where
  status : Nat
  body : Bytes
deriving DecidableEq

/-- The decimal digit characters. -/
def digitChar (d : ℕ) : Char :=
  if d = 0 then '0' else if d = 1 then '1' else if d = 2 then '2' else if d = 3 then '3'
  else if d = 4 then '4' else if d = 5 then '5' else if d = 6 then '6' else if d = 7 then '7'
  else if d = 8 then '8' else if d = 9 then '9' else '0'

/-- Worker for `natToChars`; the fuel (`n + 1` at the top) bounds the
number of decimal digits. -/
def natToCharsAux : ℕ → ℕ → List Char
  | 0, _ => []
  | fuel + 1, n =>
    if n < 10 then [digitChar n]
    else natToCharsAux fuel (n / 10) ++ [digitChar (n % 10)]

/-- Decimal rendering of a natural number, as Python's `repr`/`str` of a
non-negative `int` (also what `json.dumps` emits for one). -/
def natToChars (n : ℕ) : List Char :=
  natToCharsAux (n + 1) n

/-- Decimal rendering as a string. -/
def natStr (n : ℕ) : String :=
  ⟨natToChars n⟩

/-- Lowercase hexadecimal digit characters, as in Python's `\uXXXX`
escapes. -/
def hexChar (d : ℕ) : Char :=
  if d < 10 then digitChar d
  else if d = 10 then 'a' else if d = 11 then 'b' else if d = 12 then 'c'
  else if d = 13 then 'd' else if d = 14 then 'e' else 'f'

/-- Four zero-padded lowercase hex digits of a code point (BMP range, the
only one the handler's messages can reach). -/
def hex4 (n : ℕ) : List Char :=
  [hexChar (n / 4096 % 16), hexChar (n / 256 % 16), hexChar (n / 16 % 16), hexChar (n % 16)]

/-- JSON string escaping as `json.dumps(..., ensure_ascii=True)` performs
it (the handler's messages are plain ASCII, where only the quote, the
backslash and the named control escapes matter). -/
def jsonEscapeChar (c : Char) : List Char :=
  if c = '"' then ['\\', '"']
  else if c = '\\' then ['\\', '\\']
  else if c = '\n' then ['\\', 'n']
  else if c = '\t' then ['\\', 't']
  else if c = '\r' then ['\\', 'r']
  else if c.toNat = 8 then ['\\', 'b']
  else if c.toNat = 12 then ['\\', 'f']
  else if c.toNat < 32 || 127 ≤ c.toNat then ['\\', 'u'] ++ hex4 c.toNat
  else [c]

/-- `json.dumps({'error': message}, ensure_ascii=True)`. -/
def jsonError (msg : String) : String :=
  ⟨strL "\x7b\"error\": \"" ++ (msg.data.map jsonEscapeChar).flatten ++ strL "\"\x7d"⟩

/-- `_send_error_response(code, message)`. -/
def errorResponse (code : Nat) (msg : String) : HttpResp :=
  ⟨code, strBytes (jsonError msg)⟩

/-- An incoming POST request to `/compress`: the two headers the handler
consults and the byte stream the connection can supply. -/
structure Request where
  contentLengthHeader : Option String
  contentTypeHeader : Option String
  body : Bytes

/-- `self.rfile.read(n)`: a non-negative count takes that many bytes (or
whatever the stream still holds); a negative count reads the entire
remaining stream, as for Python buffered readers. -/
def pyRead (n : Int) (b : Bytes) : Bytes :=
  if n < 0 then b else b.take n.toNat

/-- Lines 80-89: require a non-empty Content-Length header value and
parse it with `int`, answering 400 on failure. -/
def getContentLength (req : Request) : Except HttpResp Int :=
  match req.contentLengthHeader with
  | none => Except.error (errorResponse 400 "Content-Length header required")
  | some h =>
    if h = "" then Except.error (errorResponse 400 "Content-Length header required")
    else
      match pythonInt h with
      | none => Except.error (errorResponse 400 "Invalid Content-Length")
      | some n => Except.ok n

/-- `boundary[1:-1]` when the value is surrounded by double quotes. -/
def stripQuotes (s : String) : String :=
  if s.data.head? = some '"' ∧ s.data.getLast? = some '"' then
    ⟨(s.data.drop 1).dropLast⟩
  else s

/-- Lines 100-108: require `boundary=` inside the Content-Type header and
extract the (possibly quoted) boundary value. -/
def getBoundary (ct : String) : Except HttpResp String :=
  if containsSubL (strL "boundary=") ct.data then
    Except.ok (stripQuotes ⟨((splitOnList (strL "boundary=") ct.data).getD 1 [])⟩)
  else Except.error (errorResponse 400 "Invalid multipart form data")

/-- The state the part-classification loop accumulates: the last file
payload and sanitized filename seen, and the validated form fields. -/
structure ParseState where
  fileData : Option Bytes
  filename : Option String
  preset : Option String
  crf : Option Int
  scale : Option String
  fps : Option Int
  codec : Option String
deriving DecidableEq

/-- The loop state before the first part. -/
def initParseState : ParseState :=
  ⟨none, none, none, none, none, none, none⟩

/-- `b'\r\n\r\n'`. -/
def crlf2B : Bytes := [13, 10, 13, 10]

/-- `value.strip(b'\r\n')`: remove CR and LF bytes from both ends. -/
def stripCRLFBytes (b : Bytes) : Bytes :=
  ((b.dropWhile (fun x => x = 13 || x = 10)).reverse.dropWhile
    (fun x => x = 13 || x = 10)).reverse

/-- `VALID_PRESETS`. -/
def presetNames : List String := ["high", "medium", "low", "web"]

/-- `VALID_CODECS`. -/
def codecNames : List String := ["h264", "h265"]

/-- One iteration of the part loop (lines 116-176).  `Except.error ()`
models the uncaught `IndexError` raised by `part.split(b'\r\n\r\n')[1]`
when a recognized field part has no double-CRLF separator. -/
def processPart (st : ParseState) (p : Bytes) : Except Unit ParseState :=
  if !containsSubL (strBytes "Content-Disposition") p then Except.ok st
  else if containsSubL (strBytes "name=\"file\"") p then
    match findSubL crlf2B p with
    | none => Except.ok st
    | some he =>
      let hdrs : List Char := utf8DecodeIgnore (p.take he)
      let st1 :=
        if containsSubL (strL "filename=\"") hdrs then
          { st with filename := some (sanitizeFilename
              ⟨(splitOnList (strL "\"")
                  ((splitOnList (strL "filename=\"") hdrs).getD 1 [])).getD 0 []⟩) }
        else st
      let fd0 := p.drop (he + 4)
      let fd := if ([13, 10] : Bytes).isSuffixOf fd0 then fd0.take (fd0.length - 2) else fd0
      Except.ok { st1 with fileData := some fd }
  else if containsSubL (strBytes "name=\"preset\"") p then
    match (splitOnList crlf2B p)[1]? with
    | none => Except.error ()
    | some v =>
      let pv : String := ⟨utf8DecodeIgnore (stripCRLFBytes v)⟩
      Except.ok { st with preset := some (if presetNames.contains pv then pv else "medium") }
  else if containsSubL (strBytes "name=\"crf\"") p then
    match (splitOnList crlf2B p)[1]? with
    | none => Except.error ()
    | some v =>
      match utf8DecodeStrict (stripCRLFBytes v) with
      | none => Except.ok st
      | some dec =>
        match pythonInt ⟨dec⟩ with
        | none => Except.ok st
        | some cv =>
          match acceptCrf cv with
          | some cv' => Except.ok { st with crf := some cv' }
          | none => Except.ok st
  else if containsSubL (strBytes "name=\"scale\"") p then
    match (splitOnList crlf2B p)[1]? with
    | none => Except.error ()
    | some v =>
      match webScale ⟨utf8DecodeIgnore (stripCRLFBytes v)⟩ with
      | some w => Except.ok { st with scale := some w }
      | none => Except.ok st
  else if containsSubL (strBytes "name=\"fps\"") p then
    match (splitOnList crlf2B p)[1]? with
    | none => Except.error ()
    | some v =>
      match utf8DecodeStrict (stripCRLFBytes v) with
      | none => Except.ok st
      | some dec =>
        match pythonInt ⟨dec⟩ with
        | none => Except.ok st
        | some fv =>
          match acceptFps fv with
          | some fv' => Except.ok { st with fps := some fv' }
          | none => Except.ok st
  else if containsSubL (strBytes "name=\"codec\"") p then
    match (splitOnList crlf2B p)[1]? with
    | none => Except.error ()
    | some v =>
      let cv : String := ⟨utf8DecodeIgnore (stripCRLFBytes v)⟩
      Except.ok { st with codec := some (if codecNames.contains cv then cv else "h264") }
  else Except.ok st

/-- The whole part loop; an exception aborts the remaining parts. -/
def classifyParts : List Bytes → ParseState → Except Unit ParseState
  | [], st => Except.ok st
  | p :: rest, st =>
    match processPart st p with
    | Except.error e => Except.error e
    | Except.ok st' => classifyParts rest st'

/-- Python truthiness of the `file_data` variable (`None` and `b''` are
falsy). -/
def truthyB : Option Bytes → Bool
  | none => false
  | some b => !b.isEmpty

/-- Python truthiness of the `filename` variable. -/
def truthyS : Option String → Bool
  | none => false
  | some s => !(s = "")

/-- Filesystem and subprocess events of one request, for stating the
cleanup and never-invokes properties. -/
inductive Event where
  | readBody (n : Nat)
  | mkdtempE (d : String)
  | runEncoder
  | rmtreeE (d : String)
deriving DecidableEq

/-- The oracle for everything that happens inside the `try` block once
staging begins: a successful encode produced these bytes, the encoder
exited non-zero with this stderr text, or an unexpected exception was
raised (before or after the encoder ran). -/
inductive EncodeOutcome where
  | ok (outBytes : Bytes)
  | encoderFail (err : String)
  | raisedBeforeEncode (msg : String)
  | raisedAfterEncode (msg : String)
deriving DecidableEq

/-- Whether the encoder subprocess was started under this outcome. -/
def encodeEvents : EncodeOutcome → List Event
  | EncodeOutcome.raisedBeforeEncode _ => []
  | _ => [Event.runEncoder]

/-- The response computed by the `try`/`except` of lines 185-234:
200 with the output bytes, 500 with the encoder's stderr, or 500 with the
generic server-error message. -/
def tryBlockResp : EncodeOutcome → HttpResp
  | EncodeOutcome.ok outBytes => ⟨200, outBytes⟩
  | EncodeOutcome.encoderFail e => errorResponse 500 e
  | EncodeOutcome.raisedBeforeEncode m => errorResponse 500 ("Server error: " ++ m)
  | EncodeOutcome.raisedAfterEncode m => errorResponse 500 ("Server error: " ++ m)

/-- Lines 180-241: `tempfile.mkdtemp()` registers the directory, the
`try`/`except` computes the response, and the `finally` removes the
directory on every path. -/
def stagePipeline (d : String) (oc : EncodeOutcome) (fs : List String) :
    HttpResp × List Event × List String :=
  let fs1 := d :: fs
  let resp := tryBlockResp oc
  let fs2 := fs1.erase d
  (resp, [Event.mkdtempE d] ++ encodeEvents oc ++ [Event.rmtreeE d], fs2)

/-- Lines 178-243: stage and compress when a truthy `file_data` and
`filename` were found, else answer 400. -/
def dispatchParsed (st : ParseState) (d : String) (oc : EncodeOutcome)
    (fs : List String) : HttpResp × List Event × List String :=
  if truthyB st.fileData && truthyS st.filename then stagePipeline d oc fs
  else (errorResponse 400 "No file uploaded", [], fs)

deriving instance DecidableEq for Except

/-- The observable result of one `do_POST` to `/compress`:
`outcome = Except.error ()` means an exception escaped the handler and no
response was sent. -/
structure DoPostResult where
  outcome : Except Unit HttpResp
  events : List Event
  fs : List String
deriving DecidableEq

/-- `do_POST` on `/compress` (lines 76-243), parametrized by the fresh
temporary directory name the OS would hand out and by the encoder
oracle. -/
def doPost (req : Request) (d : String) (oc : EncodeOutcome)
    (fs : List String) : DoPostResult :=
  match getContentLength req with
  | Except.error r => ⟨Except.ok r, [], fs⟩
  | Except.ok n =>
    if n > maxFileSize then
      ⟨Except.ok (errorResponse 413 "File too large. Maximum size is 4GB"), [], fs⟩
    else
      match getBoundary ((req.contentTypeHeader).getD "") with
      | Except.error r => ⟨Except.ok r, [Event.readBody (pyRead n req.body).length], fs⟩
      | Except.ok b =>
        match classifyParts (splitOnList (strBytes ("--" ++ b)) (pyRead n req.body))
            initParseState with
        | Except.error _ =>
          ⟨Except.error (), [Event.readBody (pyRead n req.body).length], fs⟩
        | Except.ok st =>
          ⟨Except.ok (dispatchParsed st d oc fs).1,
           Event.readBody (pyRead n req.body).length :: (dispatchParsed st d oc fs).2.1,
           (dispatchParsed st d oc fs).2.2⟩

/-! ### The success ratio and its header (`compress`, lines 131-141, and
`do_POST`, lines 213-218)

`compression_ratio = (1 - output_size / input_size) * 100` is evaluated
in IEEE-754 binary64: Python's `int / int` produces the correctly rounded
double quotient, and each of the subtraction and multiplication rounds
its exact result to the nearest double (ties to even).  `f"{x:.1f}"` then
rounds the double's exact value to one decimal (a tie is impossible,
since an odd multiple of 1/20 is never a dyadic rational).  The doubles
are modelled as exact rationals carried as unnormalized integer
fractions, so every step is kernel-computable; negative zero cannot arise
in this computation (`1 - d` is exactly zero only for `d = 1`, giving
`+0.0`), and the sign `%.1f` prints is the sign of the rational. -/

/-- An unnormalized fraction `num / den` with `den > 0` maintained by all
operations below (exact value of a binary64 number or of an intermediate
rational). -/
structure Frac where
  num : ℤ
  den : ℤ
deriving DecidableEq

/-- Embed a natural number. -/
def fOfNat (n : ℕ) : Frac := ⟨n, 1⟩

/-- Negation. -/
def fNeg (a : Frac) : Frac := ⟨-a.num, a.den⟩

/-- Exact subtraction. -/
def fSub (a b : Frac) : Frac := ⟨a.num * b.den - b.num * a.den, a.den * b.den⟩

/-- Exact multiplication. -/
def fMul (a b : Frac) : Frac := ⟨a.num * b.num, a.den * b.den⟩

/-- Exact division (sign moved into the numerator to keep `den > 0`). -/
def fDiv (a b : Frac) : Frac :=
  if b.num < 0 then ⟨-(a.num * b.den), a.den * (-b.num)⟩ else ⟨a.num * b.den, a.den * b.num⟩

/-- Comparison by cross-multiplication (dens positive). -/
def fLt (a b : Frac) : Bool :=
  a.num * b.den < b.num * a.den

/-- Fuel-driven base-2 logarithm (`n` itself is enough fuel). -/
def log2Aux : ℕ → ℕ → ℕ
  | 0, _ => 0
  | fuel + 1, n => if n < 2 then 0 else log2Aux fuel (n / 2) + 1

/-- Number of binary digits of a natural number. -/
def bitLen (n : ℕ) : ℕ :=
  if n = 0 then 0 else log2Aux n n + 1

/-- `2 ^ e` as an exact fraction, for any integer exponent. -/
def qpow2F : ℤ → Frac
  | Int.ofNat n => ⟨((2 ^ n : ℕ) : ℤ), 1⟩
  | Int.negSucc n => ⟨1, ((2 ^ (n + 1) : ℕ) : ℤ)⟩

/-- Largest `e` with `2 ^ e ≤ a`, for a positive fraction `a`: the bit
lengths bound it within one, and a single comparison settles it. -/
def ilog2F (a : Frac) : ℤ :=
  let e0 : ℤ := (bitLen a.num.natAbs : ℤ) - (bitLen a.den.natAbs : ℤ)
  if fLt a (qpow2F e0) then e0 - 1 else e0

/-- Round to the nearest integer, ties to even. -/
def rheF (x : Frac) : ℤ :=
  let f := Int.fdiv x.num x.den
  let rnum := x.num - f * x.den
  if 2 * rnum < x.den then f
  else if x.den < 2 * rnum then f + 1
  else if f % 2 = 0 then f else f + 1

/-- Correct rounding of an exact rational to IEEE-754 binary64
(round-to-nearest, ties-to-even, with gradual underflow below
`2 ^ (-1022)`); the claim's hypotheses keep every value far from the
overflow range. -/
def roundB64 (q : Frac) : Frac :=
  if q.num = 0 then ⟨0, 1⟩
  else
    let a := if q.num < 0 then fNeg q else q
    let e := ilog2F a
    let ulpExp := (if e < -1022 then -1022 else e) - 52
    let k := rheF (fDiv a (qpow2F ulpExp))
    if q.num < 0 then fMul ⟨-k, 1⟩ (qpow2F ulpExp) else fMul ⟨k, 1⟩ (qpow2F ulpExp)

/-- The double `(1 - output_size / input_size) * 100` of line 133, one
rounding per Python operation. -/
def compressionRatioB64 (inputSize outputSize : ℕ) : Frac :=
  roundB64 (fMul (roundB64 (fSub (fOfNat 1)
    (roundB64 (fDiv (fOfNat outputSize) (fOfNat inputSize))))) (fOfNat 100))

/-- `f"{x:.1f}"` on the exact value of a double: round to the nearest
tenth (ties to even, unreachable for dyadic values) and render sign,
integer digits, dot, one decimal digit. -/
def fmtDot1Chars (q : Frac) : List Char :=
  let t := rheF (fMul q ⟨10, 1⟩)
  (if q.num < 0 then ['-'] else []) ++
    natToChars (t.natAbs / 10) ++ ['.'] ++ natToChars (t.natAbs % 10)

/-- `result['compression_ratio']`, i.e. `f"{compression_ratio:.1f}%"` of
line 141. -/
def compressionRatioStr (inputSize outputSize : ℕ) : String :=
  ⟨fmtDot1Chars (compressionRatioB64 inputSize outputSize) ++ ['%']⟩

/-- The claim's formula read in exact arithmetic:
`(1 - outputSize/inputSize) * 100` as a rational, formatted to one
decimal place. -/
def specRatioStr (inputSize outputSize : ℕ) : String :=
  ⟨fmtDot1Chars (fMul (fSub (fOfNat 1)
    (fDiv (fOfNat outputSize) (fOfNat inputSize))) (fOfNat 100)) ++ ['%']⟩

/-- `json.dumps` rendering of a string value. -/
def jsonStrVal (s : String) : String :=
  "\"" ++ ⟨(s.data.map jsonEscapeChar).flatten⟩ ++ "\""

/-- The value of the `X-Compression-Info` header (lines 213-218):
`json.dumps` of the dict holding the sizes that `compress` stored in
`result['input_size']` / `result['output_size']` and the formatted ratio
from `result['compression_ratio']`. -/
def xCompressionInfo (origSize compSize : ℕ) : String :=
  "\x7b\"original_size\": " ++ natStr origSize ++ ", \"compressed_size\": " ++
    natStr compSize ++ ", \"ratio\": " ++
    jsonStrVal (compressionRatioStr origSize compSize) ++ "\x7d"

/-! ### Helper lemmas -/

theorem getLastD_mem {α : Type} (l : List α) (d : α) (h : l ≠ []) :
    l.getLastD d ∈ l := by
  induction l with
  | nil => exact absurd rfl h
  | cons a t ih =>
    cases t with
    | nil => simp [List.getLastD]
    | cons b u =>
      rw [List.getLastD_cons]
      exact List.mem_cons_of_mem a (ih (by simp))

theorem splitOnChar_ne_nil (sep : Char) (l : List Char) :
    splitOnChar sep l ≠ [] := by
  cases l with
  | nil => simp [splitOnChar]
  | cons c cs =>
    simp only [splitOnChar]
    split <;> simp

theorem splitOnChar_of_not_mem {sep : Char} {l : List Char} (h : sep ∉ l) :
    splitOnChar sep l = [l] := by
  induction l with
  | nil => rfl
  | cons c cs ih =>
    rw [List.mem_cons, not_or] at h
    simp only [splitOnChar, ih h.2]
    rw [if_neg (show ¬c = sep from fun hc => h.1 hc.symm)]
    rfl

theorem splitOnChar_sep_not_mem (sep : Char) (l : List Char) :
    ∀ x ∈ splitOnChar sep l, sep ∉ x := by
  induction l with
  | nil =>
    intro x hx
    simp [splitOnChar] at hx
    simp [hx]
  | cons c cs ih =>
    intro x hx
    simp only [splitOnChar] at hx
    by_cases hc : c = sep
    · rw [if_pos hc] at hx
      rcases List.mem_cons.mp hx with h | h
      · simp [h]
      · exact ih x h
    · rw [if_neg hc] at hx
      rcases List.mem_cons.mp hx with h | h
      · subst h
        intro hmem
        rcases List.mem_cons.mp hmem with h' | h'
        · exact hc h'.symm
        · have hhead : (splitOnChar sep cs).headD [] ∈ splitOnChar sep cs := by
            cases hr : splitOnChar sep cs with
            | nil => exact absurd hr (splitOnChar_ne_nil sep cs)
            | cons a t => simp
          exact ih _ hhead h'
      · exact ih x (List.mem_of_mem_tail h)

theorem posixNameL_fixed {l : List Char} (h0 : l ≠ []) (h1 : l ≠ ['.'])
    (h2 : '/' ∉ l) : posixNameL l = l := by
  simp only [posixNameL, pathComponents, splitOnChar_of_not_mem h2]
  rw [List.filter_cons_of_pos (by simp [h0, h1])]
  rfl

theorem posixNameL_idem (l : List Char) : posixNameL (posixNameL l) = posixNameL l := by
  cases hc : pathComponents l with
  | nil => simp [posixNameL, hc]; rfl
  | cons a t =>
    have hmem : posixNameL l ∈ pathComponents l := by
      rw [posixNameL]
      exact getLastD_mem _ _ (by rw [hc]; simp)
    rw [pathComponents, List.mem_filter] at hmem
    have hprop := hmem.2
    simp only [decide_eq_true_eq, ne_eq, Bool.and_eq_true, decide_not] at hprop
    exact posixNameL_fixed (by simpa using hprop.1) (by simpa using hprop.2)
      (splitOnChar_sep_not_mem '/' l _ hmem.1)

theorem mem_replaceBadL {c : Char} {l : List Char} (h : c ∈ replaceBadL l) :
    badChar c = false ∧ (c = '_' ∨ c ∈ l) := by
  rw [replaceBadL, List.mem_map] at h
  obtain ⟨a, ha, hc⟩ := h
  by_cases hb : badChar a
  · rw [if_pos hb] at hc
    subst hc
    exact ⟨by decide, Or.inl rfl⟩
  · rw [if_neg hb] at hc
    subst hc
    exact ⟨by simpa using hb, Or.inr ha⟩

theorem replaceBadL_eq_self {l : List Char} (h : ∀ c ∈ l, badChar c = false) :
    replaceBadL l = l := by
  induction l with
  | nil => rfl
  | cons a t ih =>
    have ha := h a (List.mem_cons_self a t)
    have ht := ih (fun c hc => h c (List.mem_cons_of_mem a hc))
    simp only [replaceBadL, List.map_cons] at ht ⊢
    rw [if_neg (by simp [ha]), ht]

theorem removeNullsL_eq_self {l : List Char} (h : '\x00' ∉ l) :
    removeNullsL l = l := by
  rw [removeNullsL, List.filter_eq_self]
  intro a ha
  simp only [decide_eq_true_eq, ne_eq]
  intro he
  exact h (he ▸ ha)

theorem dictGet_dictSet_self (d : PyDict) (k : String) (v : Val) :
    dictGet (dictSet d k v) k = some v := by
  induction d with
  | nil => simp [dictSet, dictGet, assocGet]
  | cons kv rest ih =>
    obtain ⟨k', v'⟩ := kv
    by_cases hk : k' = k
    · simp [dictSet, hk, dictGet, assocGet]
    · rw [dictSet, if_neg hk]
      show (if k = k' then some v' else assocGet k (dictSet rest k v)) = some v
      rw [if_neg (show ¬k = k' from fun h => hk h.symm)]
      exact ih

/-! ### Properties of the sanitizer needed for claim C5 -/

theorem sanitizeCore_chars {c : Char} {l : List Char} (h : c ∈ sanitizeCore l) :
    badChar c = false ∧ c ≠ '\x00' := by
  rw [sanitizeCore] at h
  obtain ⟨hbad, hor⟩ := mem_replaceBadL h
  refine ⟨hbad, ?_⟩
  rcases hor with he | hmem
  · subst he; decide
  · rw [removeNullsL, List.mem_filter] at hmem
    simpa using hmem.2

theorem sanitizeL_uploaded : sanitizeL "uploaded_video".data = "uploaded_video".data := by
  decide

theorem sanitizeCore_fixed {l : List Char} (h0 : l ≠ []) (hdot : l ≠ ['.'])
    (hchars : ∀ c ∈ l, badChar c = false ∧ c ≠ '\x00') :
    sanitizeCore l = l := by
  have hslash : '/' ∉ l := fun hm => by
    have := (hchars _ hm).1
    simp [badChar] at this
  have hnull : '\x00' ∉ l := fun hm => (hchars _ hm).2 rfl
  rw [sanitizeCore, posixNameL_fixed h0 hdot hslash, removeNullsL_eq_self hnull,
    replaceBadL_eq_self (fun c hc => (hchars c hc).1)]

theorem sanitizeL_idem {l : List Char} (h : sanitizeL l ≠ ['.']) :
    sanitizeL (sanitizeL l) = sanitizeL l := by
  by_cases hf : sanitizeCore l = []
  · have huv : sanitizeL l = "uploaded_video".data := by rw [sanitizeL, if_pos hf]
    rw [huv]
    exact sanitizeL_uploaded
  · have hval : sanitizeL l = sanitizeCore l := by rw [sanitizeL, if_neg hf]
    have hdot : sanitizeCore l ≠ ['.'] := hval ▸ h
    have hcore := sanitizeCore_fixed hf hdot (fun c hc => sanitizeCore_chars hc)
    rw [hval, sanitizeL, hcore, if_neg hf]

theorem sanitizeL_posix (l : List Char) : sanitizeL (posixNameL l) = sanitizeL l := by
  rw [sanitizeL, sanitizeL, sanitizeCore, sanitizeCore, posixNameL_idem]

/-! ### Claim theorems: settings resolution and sanitization -/

/-- Claim C2: for every preset and integer crf override, the handler's
`0 <= crf_val <= 51` gate composed with the merge in `compress` retains
the preset's default crf for out-of-range overrides and carries exactly
the override inside the range. -/
theorem c2_crf_override (p : String) (v : Int) :
    ((v < 0 ∨ 51 < v) →
      dictGet (resolveSettings p (acceptCrf v) none) "crf" =
        dictGet (resolveSettings p none none) "crf") ∧
    (0 ≤ v → v ≤ 51 →
      dictGet (resolveSettings p (acceptCrf v) none) "crf" = some (Val.i v)) := by
  constructor
  · intro h
    rw [acceptCrf, if_neg (by rcases h with h | h <;> omega)]
  · intro h0 h51
    rw [acceptCrf, if_pos ⟨h0, h51⟩]
    exact dictGet_dictSet_self _ "crf" (Val.i v)

/-- Witness for C2 at crf overrides 100 (ignored) and 20 (applied). -/
theorem c2_crf_override_witness :
    ((100 : Int) < 0 ∨ (51 : Int) < 100) ∧
    dictGet (resolveSettings "high" (acceptCrf 100) none) "crf" =
      dictGet (resolveSettings "high" none none) "crf" ∧
    (0 : Int) ≤ 20 ∧ (20 : Int) ≤ 51 ∧
    dictGet (resolveSettings "web" (acceptCrf 20) none) "crf" = some (Val.i 20) :=
  ⟨Or.inr (by decide), (c2_crf_override "high" 100).1 (Or.inr (by decide)),
   by decide, by decide, (c2_crf_override "web" 20).2 (by decide) (by decide)⟩

/-- Claim C3: each of the four built-in preset names resolves (with no
overrides) to exactly its built-in defaults, and every other name
resolves to the medium defaults. -/
theorem c3_preset_lookup :
    (resolveSettings "high" none none = highDict ∧
     resolveSettings "medium" none none = mediumDict ∧
     resolveSettings "low" none none = lowDict ∧
     resolveSettings "web" none none = webDict) ∧
    ∀ p : String, p ≠ "high" → p ≠ "medium" → p ≠ "low" → p ≠ "web" →
      resolveSettings p none none = mediumDict := by
  constructor
  · exact ⟨by decide, by decide, by decide, by decide⟩
  · intro p h1 h2 h3 h4
    simp [resolveSettings, assocGet, presetsDict, h1, h2, h3, h4, applyCrf, applyScale]

/-- Witness for C3 at the unmatched (wrong-case) name `HIGH`. -/
theorem c3_preset_lookup_witness :
    ("HIGH" : String) ≠ "high" ∧ ("HIGH" : String) ≠ "medium" ∧
    ("HIGH" : String) ≠ "low" ∧ ("HIGH" : String) ≠ "web" ∧
    resolveSettings "HIGH" none none = mediumDict :=
  ⟨by decide, by decide, by decide, by decide,
   c3_preset_lookup.2 "HIGH" (by decide) (by decide) (by decide) (by decide)⟩

/-- Counterexample for claim C4 as stated: the string `0:-2` does not
match `<positive-integer>:<optional-minus><integer>` (its first group is
zero), yet the handler accepts it verbatim into the resolved settings
instead of ignoring it. -/
theorem c4_scale_counterexample :
    specScalePattern "0:-2" = false ∧
    webScale "0:-2" = some "0:-2" ∧
    dictGet (resolveSettings "medium" none (webScale "0:-2")) "scale" =
      some (Val.s "0:-2") ∧
    dictGet (resolveSettings "medium" none none) "scale" = none := by
  decide

/-- Claim C4 as amended: for ASCII scale strings (Python's `\d` also
covers non-ASCII Unicode digits), a string matching `\d+:-?\d+` — first
group any non-empty digit run, not necessarily of positive value — is
accepted verbatim, and a non-matching string leaves the preset's scale
unchanged. -/
theorem c4_scale_pattern (p : String) (s : String)
    (_hascii : ∀ c ∈ s.data, c.toNat < 128) :
    (scaleMatch s.data = true →
      dictGet (resolveSettings p none (webScale s)) "scale" = some (Val.s s)) ∧
    (scaleMatch s.data = false →
      dictGet (resolveSettings p none (webScale s)) "scale" =
        dictGet (resolveSettings p none none) "scale") := by
  constructor
  · intro hm
    have hns : s ≠ "" := by
      intro he
      rw [he] at hm
      exact absurd hm (by decide)
    have hnn : s ≠ "none" := by
      intro he
      rw [he] at hm
      exact absurd hm (by decide)
    rw [webScale, if_neg hns, if_neg hnn, if_pos hm]
    show dictGet (applyScale _ (some s)) "scale" = some (Val.s s)
    rw [applyScale, if_neg hns]
    exact dictGet_dictSet_self _ "scale" (Val.s s)
  · intro hm
    rw [webScale]
    split
    · rfl
    · split
      · rfl
      · rw [if_neg (by simp [hm])]

/-- Witness for C4 (amended) at the accepted string `1280:-2`. -/
theorem c4_scale_pattern_witness :
    (∀ c ∈ ("1280:-2" : String).data, c.toNat < 128) ∧
    scaleMatch ("1280:-2" : String).data = true ∧
    dictGet (resolveSettings "high" none (webScale "1280:-2")) "scale" =
      some (Val.s "1280:-2") :=
  ⟨by decide, by decide, (c4_scale_pattern "high" "1280:-2" (by decide)).1 (by decide)⟩

/-- Counterexample for claim C5 as stated: sanitization is not idempotent.
The input `.\x00` keeps its dot-null final component (it is not the
single-dot component pathlib drops), loses the null afterwards and
sanitizes to `.`; sanitizing `.` yields `uploaded_video`. -/
theorem c5_sanitize_counterexample :
    sanitizeFilename ".\x00" = "." ∧
    sanitizeFilename (sanitizeFilename ".\x00") = "uploaded_video" ∧
    sanitizeFilename (sanitizeFilename ".\x00") ≠ sanitizeFilename ".\x00" := by
  decide

/-- Claim C5 as amended: sanitization is idempotent for every input whose
sanitized result is not the literal `.` (the sole exception, reachable
e.g. from `.\x00`, re-sanitizes to `uploaded_video`), and for every input
the result equals the sanitization of the final path component alone. -/
theorem c5_sanitize_idem (s : String) :
    (sanitizeFilename s ≠ "." →
      sanitizeFilename (sanitizeFilename s) = sanitizeFilename s) ∧
    sanitizeFilename s = sanitizeFilename (pathFinalComponent s) := by
  constructor
  · intro h
    have hd : sanitizeL s.data ≠ ['.'] := fun he => h (congrArg String.mk he)
    exact congrArg String.mk (sanitizeL_idem hd)
  · exact (congrArg String.mk (sanitizeL_posix s.data)).symm

/-- Witness for C5 (amended) at the traversal input `../../etc/passwd`. -/
theorem c5_sanitize_idem_witness :
    sanitizeFilename "../../etc/passwd" ≠ "." ∧
    sanitizeFilename (sanitizeFilename "../../etc/passwd") =
      sanitizeFilename "../../etc/passwd" ∧
    sanitizeFilename "../../etc/passwd" =
      sanitizeFilename (pathFinalComponent "../../etc/passwd") :=
  ⟨by decide, (c5_sanitize_idem "../../etc/passwd").1 (by decide),
   (c5_sanitize_idem "../../etc/passwd").2⟩

/-! ### Claim C9: resolution never mutates the preset table -/

theorem readRef_append_lt {hp : Heap} {d : PyDict} {i : Nat} (hi : i < hp.length) :
    readRef (hp ++ [d]) i = readRef hp i := by
  rw [readRef, readRef, List.getD, List.getD, List.get?_eq_getElem?,
    List.get?_eq_getElem?, List.getElem?_append_left hi]

theorem readRef_set_ne {hp : Heap} {r i : Nat} {d : PyDict} (hne : i ≠ r) :
    readRef (hp.set r d) i = readRef hp i := by
  rw [readRef, readRef, List.getD, List.getD, List.get?_eq_getElem?,
    List.get?_eq_getElem?, List.getElem?_set_ne (show r ≠ i from fun he => hne he.symm)]

theorem applyCrfH_length (h : Heap) (rc : Nat) (c : Option Int) :
    (applyCrfH h rc c).length = h.length := by
  cases c <;> simp [applyCrfH]

theorem readRef_applyCrfH_ne {h : Heap} {rc i : Nat} {c : Option Int} (hne : i ≠ rc) :
    readRef (applyCrfH h rc c) i = readRef h i := by
  cases c with
  | none => rfl
  | some cv => exact readRef_set_ne hne

theorem readRef_applyScaleH_ne {h : Heap} {rc i : Nat} {s : Option String} (hne : i ≠ rc) :
    readRef (applyScaleH h rc s) i = readRef h i := by
  cases s with
  | none => rfl
  | some sv =>
    rw [applyScaleH]
    split
    · rfl
    · exact readRef_set_ne hne

/-- Claim C9: settings resolution is a pure function of its inputs and
never mutates the preset table.  First conjunct: resolving over any heap
leaves every pre-existing object (in particular the four preset dicts of
`initHeap`) untouched.  Second conjunct: the dict the resolution returns
is exactly the value of the pure function `resolveSettings`, so repeated
calls yield identical settings. -/
theorem c9_resolution_pure :
    (∀ (h : Heap) (p : String) (c : Option Int) (s : Option String) (i : Nat),
       i < h.length → readRef (resolveHeap h p c s).1 i = readRef h i) ∧
    (∀ (p : String) (c : Option Int) (s : Option String),
       readRef (resolveHeap initHeap p c s).1 (resolveHeap initHeap p c s).2 =
         resolveSettings p c s) := by
  constructor
  · intro h p c s i hi
    have hne : i ≠ h.length := by omega
    rw [resolveHeap]
    exact (readRef_applyScaleH_ne hne).trans
      ((readRef_applyCrfH_ne hne).trans (readRef_append_lt hi))
  · intro p c s
    have hbase : readRef initHeap (refOf p) = (assocGet p presetsDict).getD mediumDict := by
      by_cases h1 : p = "high"
      · subst h1; decide
      · by_cases h2 : p = "medium"
        · subst h2; decide
        · by_cases h3 : p = "low"
          · subst h3; decide
          · by_cases h4 : p = "web"
            · subst h4; decide
            · simp [refOf, presetRefs, presetsDict, assocGet, h1, h2, h3, h4]
              decide
    rw [resolveHeap, resolveSettings, hbase]
    rcases c with _ | cv <;> rcases s with _ | sv
    · rfl
    · rw [applyCrfH, applyCrf, applyScaleH, applyScale]
      split
      · rfl
      · rfl
    · rfl
    · rw [applyCrfH, applyCrf, applyScaleH, applyScale]
      split
      · rfl
      · rfl

/-- Witness for C9: one concrete resolution leaves the medium preset's
object unchanged. -/
theorem c9_resolution_pure_witness :
    1 < initHeap.length ∧
    readRef (resolveHeap initHeap "high" (some 20) (some "640:-2")).1 1 =
      readRef initHeap 1 :=
  ⟨by decide, c9_resolution_pure.1 initHeap "high" (some 20) (some "640:-2") 1 (by decide)⟩

/-! ### Concrete requests used by witnesses and counterexamples -/

/-- A well-formed upload: one file part with filename `a.mov` and payload
`DATA`, one preset part. -/
def reqUploadOk : Request :=
  ⟨some "141", some "multipart/form-data; boundary=B",
   strBytes "--B\r\nContent-Disposition: form-data; name=\"file\"; filename=\"a.mov\"\r\n\r\nDATA\r\n--B\r\nContent-Disposition: form-data; name=\"preset\"\r\n\r\nhigh\r\n--B--"⟩

/-- A body with only a well-formed preset part and no file part. -/
def reqPresetOnly : Request :=
  ⟨some "65", some "multipart/form-data; boundary=B",
   strBytes "--B\r\nContent-Disposition: form-data; name=\"preset\"\r\n\r\nhigh\r\n--B--"⟩

/-- A body with only a preset part that lacks the double-CRLF separator. -/
def reqPresetMalformed : Request :=
  ⟨some "50", some "multipart/form-data; boundary=B",
   strBytes "--B\r\nContent-Disposition: form-data; name=\"preset\""⟩

/-- A body whose single file part has a filename but a zero-byte payload. -/
def reqEmptyFile : Request :=
  ⟨some "77", some "multipart/form-data; boundary=B",
   strBytes "--B\r\nContent-Disposition: form-data; name=\"file\"; filename=\"a.mov\"\r\n\r\n\r\n--B--"⟩

/-- A body with an empty-payload file part (with filename) followed by a
second file part that has a payload but no filename. -/
def reqTwoFileParts : Request :=
  ⟨some "133", some "multipart/form-data; boundary=B",
   strBytes "--B\r\nContent-Disposition: form-data; name=\"file\"; filename=\"a.mov\"\r\n\r\n\r\n--B\r\nContent-Disposition: form-data; name=\"file\"\r\n\r\nXY\r\n--B--"⟩

/-- A request declaring a negative Content-Length over a 3-byte stream. -/
def reqNegLen : Request :=
  ⟨some "-1", some "x; boundary=B", [65, 66, 67]⟩

/-- A request declaring Content-Length 2 over a 3-byte stream. -/
def reqSmall : Request :=
  ⟨some "2", some "x; boundary=B", [65, 66, 67]⟩

/-! ### Dispatch lemmas -/

theorem dispatchParsed_fs (st : ParseState) (d : String) (oc : EncodeOutcome)
    (fs : List String) : (dispatchParsed st d oc fs).2.2 = fs := by
  rw [dispatchParsed]
  split
  · simp [stagePipeline, List.erase_cons_head]
  · rfl

theorem dispatchParsed_rmtree (st : ParseState) (d : String) (oc : EncodeOutcome)
    (fs : List String) :
    Event.mkdtempE d ∈ (dispatchParsed st d oc fs).2.1 →
      Event.rmtreeE d ∈ (dispatchParsed st d oc fs).2.1 := by
  rw [dispatchParsed]
  split
  · intro _
    simp [stagePipeline]
  · intro hmem
    simp at hmem

/-! ### Claim C1: the temporary directory is always cleaned up -/

/-- Claim C1: whatever the request, the encoder outcome (success, encoder
failure, or an unexpected exception before or after the encoder ran) and
the prior filesystem, the handler leaves the filesystem as it found it,
and whenever it created its temporary directory it also removed it before
returning. -/
theorem c1_tempdir_cleanup (req : Request) (d : String) (oc : EncodeOutcome)
    (fs : List String) (_hd : d ∉ fs) :
    (doPost req d oc fs).fs = fs ∧
    (Event.mkdtempE d ∈ (doPost req d oc fs).events →
      Event.rmtreeE d ∈ (doPost req d oc fs).events) := by
  unfold doPost
  split
  · simp
  · split
    · simp
    · split
      · simp
      · split
        · simp
        · refine ⟨dispatchParsed_fs _ _ _ _, ?_⟩
          intro hmem
          rcases List.mem_cons.mp hmem with he | hmem2
          · exact absurd he (by simp)
          · exact List.mem_cons_of_mem _ (dispatchParsed_rmtree _ _ _ _ hmem2)

/-- Witness for C1: a successful encode of a staged upload removes the
created directory. -/
theorem c1_tempdir_cleanup_witness :
    "tmpdir1" ∉ ([] : List String) ∧
    (doPost reqUploadOk "tmpdir1" (EncodeOutcome.ok [1, 2, 3]) []).fs = [] ∧
    Event.mkdtempE "tmpdir1" ∈
      (doPost reqUploadOk "tmpdir1" (EncodeOutcome.ok [1, 2, 3]) []).events ∧
    Event.rmtreeE "tmpdir1" ∈
      (doPost reqUploadOk "tmpdir1" (EncodeOutcome.ok [1, 2, 3]) []).events :=
  ⟨by decide,
   (c1_tempdir_cleanup reqUploadOk "tmpdir1" (EncodeOutcome.ok [1, 2, 3]) []
      (by decide)).1,
   by decide,
   (c1_tempdir_cleanup reqUploadOk "tmpdir1" (EncodeOutcome.ok [1, 2, 3]) []
      (by decide)).2 (by decide)⟩

/-! ### Claims C6 and C10: the no-file 400 path -/

/-- Counterexample for claim C6 as stated: a body whose only (preset)
part lacks the double-CRLF separator contains no file part at all, yet
the handler raises an uncaught IndexError at
`part.split(b'\r\n\r\n')[1]` and never sends the 400 response. -/
theorem c6_counterexample :
    containsSubL (strBytes "name=\"file\"") reqPresetMalformed.body = false ∧
    (doPost reqPresetMalformed "t" (EncodeOutcome.ok []) []).outcome =
      Except.error () ∧
    (doPost reqPresetMalformed "t" (EncodeOutcome.ok []) []).outcome ≠
      Except.ok (errorResponse 400 "No file uploaded") := by
  decide

/-- Claim C6 as amended: whenever the request passes the header checks
and part classification completes without raising (every recognized
non-file field part carries the double-CRLF separator), and the loop
found no truthy file payload together with a truthy filename, the handler
answers 400 `No file uploaded`, never creates a temporary directory and
never invokes the encoder. -/
theorem c6_no_file_400 (req : Request) (d : String) (oc : EncodeOutcome)
    (fs : List String) (n : Int) (b : String) (st : ParseState)
    (hcl : getContentLength req = Except.ok n)
    (hmax : ¬n > maxFileSize)
    (hb : getBoundary ((req.contentTypeHeader).getD "") = Except.ok b)
    (hcls : classifyParts (splitOnList (strBytes ("--" ++ b)) (pyRead n req.body))
      initParseState = Except.ok st)
    (hnofile : (truthyB st.fileData && truthyS st.filename) = false) :
    (doPost req d oc fs).outcome = Except.ok (errorResponse 400 "No file uploaded") ∧
    (∀ d', Event.mkdtempE d' ∉ (doPost req d oc fs).events) ∧
    Event.runEncoder ∉ (doPost req d oc fs).events ∧
    (doPost req d oc fs).fs = fs := by
  unfold doPost
  simp only [hcl, hb, hcls, hmax, if_false, ite_false]
  simp [dispatchParsed, hnofile]

/-- Witness for C6 (amended) at a body holding only a preset field. -/
theorem c6_no_file_400_witness :
    getContentLength reqPresetOnly = Except.ok 65 ∧
    ¬(65 : Int) > maxFileSize ∧
    getBoundary ((reqPresetOnly.contentTypeHeader).getD "") = Except.ok "B" ∧
    classifyParts (splitOnList (strBytes ("--" ++ "B")) (pyRead 65 reqPresetOnly.body))
      initParseState = Except.ok ⟨none, none, some "high", none, none, none, none⟩ ∧
    (doPost reqPresetOnly "t" (EncodeOutcome.ok []) []).outcome =
      Except.ok (errorResponse 400 "No file uploaded") ∧
    (errorResponse 400 "No file uploaded").body =
      strBytes "\x7b\"error\": \"No file uploaded\"\x7d" :=
  ⟨by decide, by decide, by decide, by decide,
   (c6_no_file_400 reqPresetOnly "t" (EncodeOutcome.ok []) [] 65 "B"
      ⟨none, none, some "high", none, none, none, none⟩
      (by decide) (by decide) (by decide) (by decide) (by decide)).1,
   by decide⟩

/-- Counterexample for claim C10 as stated: this body contains a file
part with a valid filename and a zero-byte payload, but a later file part
supplies a non-empty payload (and no filename), so the handler stages and
compresses instead of answering 400. -/
theorem c10_counterexample :
    processPart initParseState
      ((splitOnList (strBytes "--B") reqTwoFileParts.body).getD 1 []) =
      Except.ok ⟨some [], some "a.mov", none, none, none, none, none⟩ ∧
    (doPost reqTwoFileParts "t" (EncodeOutcome.ok [9]) []).outcome =
      Except.ok ⟨200, [9]⟩ ∧
    (doPost reqTwoFileParts "t" (EncodeOutcome.ok [9]) []).outcome ≠
      Except.ok (errorResponse 400 "No file uploaded") ∧
    Event.mkdtempE "t" ∈ (doPost reqTwoFileParts "t" (EncodeOutcome.ok [9]) []).events := by
  decide

/-- Claim C10 as amended: when part classification completes and the
final aggregated file payload is the empty byte string (even though a
filename was found), the handler treats the upload exactly like a missing
file: 400 `No file uploaded`, no temporary directory, no encoder run. -/
theorem c10_empty_payload_400 (req : Request) (d : String) (oc : EncodeOutcome)
    (fs : List String) (n : Int) (b : String) (st : ParseState)
    (hcl : getContentLength req = Except.ok n)
    (hmax : ¬n > maxFileSize)
    (hb : getBoundary ((req.contentTypeHeader).getD "") = Except.ok b)
    (hcls : classifyParts (splitOnList (strBytes ("--" ++ b)) (pyRead n req.body))
      initParseState = Except.ok st)
    (hfd : st.fileData = some ([] : Bytes))
    (_hfn : truthyS st.filename = true) :
    (doPost req d oc fs).outcome = Except.ok (errorResponse 400 "No file uploaded") ∧
    (∀ d', Event.mkdtempE d' ∉ (doPost req d oc fs).events) ∧
    Event.runEncoder ∉ (doPost req d oc fs).events ∧
    (doPost req d oc fs).fs = fs := by
  unfold doPost
  simp only [hcl, hb, hcls, hmax, if_false, ite_false]
  simp [dispatchParsed, hfd, truthyB]

/-- Witness for C10 (amended) at a single empty-payload file part. -/
theorem c10_empty_payload_400_witness :
    getContentLength reqEmptyFile = Except.ok 77 ∧
    ¬(77 : Int) > maxFileSize ∧
    getBoundary ((reqEmptyFile.contentTypeHeader).getD "") = Except.ok "B" ∧
    classifyParts (splitOnList (strBytes ("--" ++ "B")) (pyRead 77 reqEmptyFile.body))
      initParseState = Except.ok ⟨some [], some "a.mov", none, none, none, none, none⟩ ∧
    truthyS (some "a.mov") = true ∧
    (doPost reqEmptyFile "t" (EncodeOutcome.ok []) []).outcome =
      Except.ok (errorResponse 400 "No file uploaded") :=
  ⟨by decide, by decide, by decide, by decide, by decide,
   (c10_empty_payload_400 reqEmptyFile "t" (EncodeOutcome.ok []) [] 77 "B"
      ⟨some [], some "a.mov", none, none, none, none, none⟩
      (by decide) (by decide) (by decide) (by decide) (by decide) (by decide)).1⟩

/-! ### Claim C7: Content-Length handling -/

theorem doPost_readBody_mem (req : Request) (d : String) (oc : EncodeOutcome)
    (fs : List String) (n : Int) (hcl : getContentLength req = Except.ok n)
    (hmax : ¬n > maxFileSize) :
    Event.readBody (pyRead n req.body).length ∈ (doPost req d oc fs).events := by
  unfold doPost
  simp only [hcl, hmax, if_false, ite_false]
  split
  · simp
  · split
    · simp
    · simp

/-- Counterexample for claim C7 as stated: the header value `-1` parses
as an integer and does not exceed the 4 GiB ceiling, so by the claim the
handler should read exactly `-1` bytes; instead `rfile.read(-1)` consumes
the entire 3-byte stream. -/
theorem c7_counterexample :
    pythonInt "-1" = some (-1) ∧
    ¬(-1 : Int) > maxFileSize ∧
    reqNegLen.body.length = 3 ∧
    pyRead (-1) reqNegLen.body = reqNegLen.body ∧
    Event.readBody 3 ∈ (doPost reqNegLen "t" (EncodeOutcome.ok []) []).events ∧
    (3 : Int) ≠ -1 := by
  decide

/-- Claim C7 as amended: a missing or empty Content-Length header and an
unparseable one answer 400; a parsed length above 4 GiB answers 413 with
no read of the body; a non-negative parsed length within the ceiling
reads exactly that many bytes (when the stream supplies them); a negative
parsed length passes the ceiling check and reads the entire remaining
stream instead of exactly Content-Length bytes. -/
theorem c7_content_length (req : Request) (d : String) (oc : EncodeOutcome)
    (fs : List String) :
    (req.contentLengthHeader = none →
      (doPost req d oc fs).outcome =
        Except.ok (errorResponse 400 "Content-Length header required")) ∧
    (req.contentLengthHeader = some "" →
      (doPost req d oc fs).outcome =
        Except.ok (errorResponse 400 "Content-Length header required")) ∧
    (∀ hv : String, req.contentLengthHeader = some hv → hv ≠ "" →
      pythonInt hv = none →
      (doPost req d oc fs).outcome =
        Except.ok (errorResponse 400 "Invalid Content-Length")) ∧
    (∀ (hv : String) (n : Int), req.contentLengthHeader = some hv → hv ≠ "" →
      pythonInt hv = some n → n > maxFileSize →
      (doPost req d oc fs).outcome =
        Except.ok (errorResponse 413 "File too large. Maximum size is 4GB") ∧
      (doPost req d oc fs).events = []) ∧
    (∀ (hv : String) (n : Int), req.contentLengthHeader = some hv → hv ≠ "" →
      pythonInt hv = some n → ¬n > maxFileSize → 0 ≤ n →
      n.toNat ≤ req.body.length →
      pyRead n req.body = req.body.take n.toNat ∧
      (pyRead n req.body).length = n.toNat ∧
      Event.readBody n.toNat ∈ (doPost req d oc fs).events) ∧
    (∀ (hv : String) (n : Int), req.contentLengthHeader = some hv → hv ≠ "" →
      pythonInt hv = some n → n < 0 →
      pyRead n req.body = req.body ∧
      Event.readBody req.body.length ∈ (doPost req d oc fs).events) := by
  refine ⟨?_, ?_, ?_, ?_, ?_, ?_⟩
  · intro h
    simp [doPost, getContentLength, h]
  · intro h
    simp [doPost, getContentLength, h]
  · intro hv hh hne hpi
    simp [doPost, getContentLength, hh, hne, hpi]
  · intro hv n hh hne hpi hgt
    have hcl : getContentLength req = Except.ok n := by
      simp [getContentLength, hh, hne, hpi]
    unfold doPost
    simp [hcl, hgt]
  · intro hv n hh hne hpi hmax h0 hlen
    have hcl : getContentLength req = Except.ok n := by
      simp [getContentLength, hh, hne, hpi]
    have hread : pyRead n req.body = req.body.take n.toNat := by
      rw [pyRead, if_neg (by omega)]
    have hrl : (pyRead n req.body).length = n.toNat := by
      rw [hread, List.length_take]
      omega
    refine ⟨hread, hrl, ?_⟩
    have := doPost_readBody_mem req d oc fs n hcl hmax
    rwa [hrl] at this
  · intro hv n hh hne hpi hneg
    have hcl : getContentLength req = Except.ok n := by
      simp [getContentLength, hh, hne, hpi]
    have hread : pyRead n req.body = req.body := by
      rw [pyRead, if_pos hneg]
    refine ⟨hread, ?_⟩
    have := doPost_readBody_mem req d oc fs n hcl (by unfold maxFileSize; omega)
    rwa [hread] at this

/-- Witness for C7 (amended): Content-Length 2 over a 3-byte stream reads
exactly the first two bytes. -/
theorem c7_content_length_witness :
    reqSmall.contentLengthHeader = some "2" ∧
    ("2" : String) ≠ "" ∧
    pythonInt "2" = some 2 ∧
    ¬(2 : Int) > maxFileSize ∧
    (0 : Int) ≤ 2 ∧
    (2 : Int).toNat ≤ reqSmall.body.length ∧
    pyRead 2 reqSmall.body = reqSmall.body.take (2 : Int).toNat ∧
    (pyRead 2 reqSmall.body).length = (2 : Int).toNat ∧
    Event.readBody (2 : Int).toNat ∈
      (doPost reqSmall "t" (EncodeOutcome.ok []) []).events :=
  ⟨rfl, by decide, by decide, by decide, by decide, by decide,
   ((c7_content_length reqSmall "t" (EncodeOutcome.ok []) []).2.2.2.2.1 "2" 2
      rfl (by decide) (by decide) (by decide) (by decide) (by decide)).1,
   ((c7_content_length reqSmall "t" (EncodeOutcome.ok []) []).2.2.2.2.1 "2" 2
      rfl (by decide) (by decide) (by decide) (by decide) (by decide)).2.1,
   ((c7_content_length reqSmall "t" (EncodeOutcome.ok []) []).2.2.2.2.1 "2" 2
      rfl (by decide) (by decide) (by decide) (by decide) (by decide)).2.2⟩

/-! ### Claim C8: the reported ratio and the X-Compression-Info header -/

theorem char_ne_of_toNat_ne {c c' : Char} (h : c.toNat ≠ c'.toNat) : c ≠ c' :=
  fun he => h (congrArg Char.toNat he)

theorem digitChar_range (d : ℕ) :
    48 ≤ (digitChar d).toNat ∧ (digitChar d).toNat ≤ 57 := by
  unfold digitChar
  split_ifs <;> decide

theorem natToCharsAux_digit (fuel n : ℕ) :
    ∀ c ∈ natToCharsAux fuel n, 48 ≤ c.toNat ∧ c.toNat ≤ 57 := by
  induction fuel generalizing n with
  | zero =>
    intro c hc
    simp [natToCharsAux] at hc
  | succ fuel ih =>
    intro c hc
    rw [natToCharsAux] at hc
    split at hc
    · rw [List.mem_singleton] at hc
      subst hc
      exact digitChar_range _
    · rcases List.mem_append.mp hc with h | h
      · exact ih _ c h
      · rw [List.mem_singleton] at h
        subst h
        exact digitChar_range _

theorem fmtDot1Chars_plain (q : Frac) :
    ∀ c ∈ fmtDot1Chars q ++ ['%'],
      32 ≤ c.toNat ∧ c.toNat < 127 ∧ c ≠ '"' ∧ c ≠ '\\' := by
  intro c hc
  have hcases : (48 ≤ c.toNat ∧ c.toNat ≤ 57) ∨ c = '-' ∨ c = '.' ∨ c = '%' := by
    rcases List.mem_append.mp hc with h | h
    · simp only [fmtDot1Chars] at h
      rcases List.mem_append.mp h with h2 | h2
      · rcases List.mem_append.mp h2 with h3 | h3
        · rcases List.mem_append.mp h3 with h4 | h4
          · split at h4
            · rw [List.mem_singleton] at h4
              exact Or.inr (Or.inl h4)
            · simp at h4
          · exact Or.inl (natToCharsAux_digit _ _ c h4)
        · rw [List.mem_singleton] at h3
          exact Or.inr (Or.inr (Or.inl h3))
      · exact Or.inl (natToCharsAux_digit _ _ c h2)
    · rw [List.mem_singleton] at h
      exact Or.inr (Or.inr (Or.inr h))
  rcases hcases with ⟨hl, hh⟩ | he | he | he
  · refine ⟨by omega, by omega, ?_, ?_⟩
    · exact char_ne_of_toNat_ne (by intro hq; rw [show ('"').toNat = 34 from rfl] at hq; omega)
    · exact char_ne_of_toNat_ne (by intro hq; rw [show ('\\').toNat = 92 from rfl] at hq; omega)
  · subst he; exact ⟨by decide, by decide, by decide, by decide⟩
  · subst he; exact ⟨by decide, by decide, by decide, by decide⟩
  · subst he; exact ⟨by decide, by decide, by decide, by decide⟩

theorem jsonEscapeChar_plain {c : Char} (h1 : 32 ≤ c.toNat) (h2 : c.toNat < 127)
    (h3 : c ≠ '"') (h4 : c ≠ '\\') : jsonEscapeChar c = [c] := by
  have hn : c ≠ '\n' := fun he => by subst he; exact absurd h1 (by decide)
  have ht : c ≠ '\t' := fun he => by subst he; exact absurd h1 (by decide)
  have hr : c ≠ '\r' := fun he => by subst he; exact absurd h1 (by decide)
  rw [jsonEscapeChar, if_neg h3, if_neg h4, if_neg hn, if_neg ht, if_neg hr,
    if_neg (show ¬c.toNat = 8 by omega), if_neg (show ¬c.toNat = 12 by omega),
    if_neg (show ¬((decide (c.toNat < 32) || decide (127 ≤ c.toNat)) = true) by
      simp only [Bool.or_eq_true, decide_eq_true_eq]
      omega)]

theorem jsonEscape_plain_id {l : List Char}
    (h : ∀ c ∈ l, 32 ≤ c.toNat ∧ c.toNat < 127 ∧ c ≠ '"' ∧ c ≠ '\\') :
    (l.map jsonEscapeChar).flatten = l := by
  induction l with
  | nil => rfl
  | cons a t ih =>
    obtain ⟨h1, h2, h3, h4⟩ := h a (List.mem_cons_self a t)
    rw [List.map_cons, List.flatten_cons, jsonEscapeChar_plain h1 h2 h3 h4,
      ih (fun c hc => h c (List.mem_cons_of_mem a hc))]
    rfl

/-- Counterexample for claim C8 as stated: at input size 2000 and output
size 1997 the code computes the double just below 0.15 (the binary64
division 1997/2000 rounds up) and reports `0.1%`, while the claim's
`(1 - M/N) * 100` formatted to one decimal place is `0.2%` (the exact
value 0.15 rounds to the even tenth).  The header therefore carries
`0.1%`, not the claimed exact formatting. -/
theorem c8_counterexample :
    compressionRatioStr 2000 1997 = "0.1%" ∧
    specRatioStr 2000 1997 = "0.2%" ∧
    compressionRatioStr 2000 1997 ≠ specRatioStr 2000 1997 ∧
    xCompressionInfo 2000 1997 =
      "\x7b\"original_size\": 2000, \"compressed_size\": 1997, \"ratio\": \"0.1%\"\x7d" := by
  decide

/-- Claim C8 as amended: on a successful encode with input size `N > 0`
(sizes within binary64's finite range), the reported reduction is
`(1 - M/N) * 100` evaluated operation-by-operation in IEEE-754 binary64
and formatted to one decimal place by correct rounding of the double's
exact value - which can differ from the exact rational value formatted to
one decimal - and the `X-Compression-Info` header carries exactly the
JSON object with `original_size` N, `compressed_size` M, and that ratio
string. -/
theorem c8_ratio_header (N M : ℕ) (_h0 : 0 < N) (_hM : M ≤ 2 ^ 256) :
    xCompressionInfo N M =
      "\x7b\"original_size\": " ++ natStr N ++ ", \"compressed_size\": " ++ natStr M ++
        ", \"ratio\": " ++ ("\"" ++ compressionRatioStr N M ++ "\"") ++ "\x7d" ∧
    compressionRatioStr N M =
      ⟨fmtDot1Chars (roundB64 (fMul (roundB64 (fSub (fOfNat 1)
          (roundB64 (fDiv (fOfNat M) (fOfNat N))))) (fOfNat 100))) ++ ['%']⟩ := by
  constructor
  · rw [xCompressionInfo, jsonStrVal]
    have hid : ((compressionRatioStr N M).data.map jsonEscapeChar).flatten =
        (compressionRatioStr N M).data :=
      jsonEscape_plain_id (fun c hc => fmtDot1Chars_plain (compressionRatioB64 N M) c hc)
    rw [hid]
  · rfl

/-- Witness for C8 (amended) at input 1000, output 600: the reported
reduction is `40.0%` (where binary64 and exact arithmetic agree). -/
theorem c8_ratio_header_witness :
    0 < 1000 ∧ 600 ≤ 2 ^ 256 ∧
    compressionRatioStr 1000 600 = "40.0%" ∧
    xCompressionInfo 1000 600 =
      "\x7b\"original_size\": 1000, \"compressed_size\": 600, \"ratio\": \"40.0%\"\x7d" ∧
    specRatioStr 1000 600 = "40.0%" :=
  ⟨by decide, by decide, by decide,
   ((c8_ratio_header 1000 600 (by decide) (by decide)).1).trans (by decide),
   by decide⟩

end MovCompressor
